import Mathlib

/-!
Verification development for the AST-based legacy-code modernizer
(`src/main.rs` of the RUST-LEGACY-INTO-MODERN-RUST-MIGRATION repository).

The engine is a `syn::VisitMut` visitor (`Modernizer`) driven by a list of
data rules (`ModernizerRule`, loaded from JSON).  This file gives a shallow
embedding of the engine:

* `ModernizerRule` mirrors the rule structure (struct at lines 18-36).
* `Expr` models the fragment of the `syn` expression tree that the engine
  inspects or builds: method calls, bare calls, paths, literals, `try`
  (question-mark) expressions and `unsafe` blocks.  Every other expression
  kind is collapsed into the opaque leaf `otherExpr`; in particular
  operator expressions are opaque, so the token-level reassociation that
  `parse_quote!` can perform around a spliced operator expression does not
  arise inside the modeled fragment.  Each constructor carries an `attrs`
  field mirroring the `attrs: Vec<Attribute>` field that every `syn`
  expression node has; it is the only place where a non-executable
  annotation could be attached to a node.
* `applyRuleTemplate`, `transformMethodCall` (via `firstRuleHit`),
  `transformExprCall` (via `callRuleHit`) and `visitExpr` embed the
  correspondingly named methods of `Modernizer`.

Modeling of `parse_quote!` (used at lines 109-113, 119-122 and 187-194):
the macro body is tokenized by the Rust lexer first, so plain `//` line
comments inside the template are discarded and never reach the produced
node; an interpolation `#x` splices the `ToTokens` rendering of `x`.  For
a Rust `String` that rendering is a string-literal token.  Hence

* the `unwrap_to_try` / `expect_to_try` template (lines 109-113) produces
  the token stream `"<note text>" <receiver tokens> ?` - a string literal
  followed by further tokens - which does not parse as a single `Expr`,
  so `parse_quote!` panics at run time whenever one of these two rules
  fires.  This is modeled as `Except.error parseQuoteFail`.
* the `ok_unwrap_to_try` template (lines 119-122) produces
  `<inner receiver tokens> ?`, i.e. a try-expression around the inner
  receiver, with no attributes.
* the `mem_uninitialized_to_maybeuninit` template (lines 187-194) produces
  `unsafe { std::mem::MaybeUninit::uninit().assume_init() }` with no
  attributes; the `WARNING` text exists only as a comment in the source
  of the tool itself and is stripped by the lexer.

State (`changed` flag and per-rule counters, lines 68-72) is threaded
explicitly as `MState`; the `HashMap` of counters is modeled as an
association list, read through `counterOf`.
-/

/-- Mirror of `struct ModernizerRule` (src/main.rs lines 18-36).  The
`args_count` field is `u8` in the source; the comparison at line 143 is
`rule.args_count as usize == method_call.args.len()`, a lossless widening,
so `Nat` is used here. -/
structure ModernizerRule where
  id : String
  ast_type : String
  method_name : String
  args_count : Nat
  replacement_template : String
  level_icon : String
  doc_url : String
  nested_method : Option String

/-- Constant `DOC_URL_UNWRAP_TO_TRY` (line 14). -/
def DOC_URL_UNWRAP_TO_TRY : String :=
  "https://doc.rust-lang.org/book/ch09-02-recoverable-errors-with-result.html#a-shortcut-for-propagating-errors-the--operator"

/-- Constant `DOC_URL_MEM_UNINITIALIZED` (line 15). -/
def DOC_URL_MEM_UNINITIALIZED : String :=
  "https://doc.rust-lang.org/std/mem/fn.uninitialized"

/-- The fragment of the `syn` expression tree inspected or produced by the
engine.  `attrs` mirrors the attribute list every `syn` expression node
carries (the place where a non-executable annotation would live).
`otherExpr` is the opaque catch-all for every other node kind, kept as an
unmodified leaf. -/
inductive Expr where
  | methodCall (attrs : List String) (receiver : Expr) (method : String) (args : List Expr)
  | callE (attrs : List String) (func : Expr) (args : List Expr)
  | pathE (attrs : List String) (segments : List String)
  | litStr (attrs : List String) (value : String)
  | litOther (attrs : List String)
  | tryExpr (attrs : List String) (inner : Expr)
  | unsBlock (attrs : List String) (body : Expr)
  | otherExpr (attrs : List String)

/-- Mutable visitor state: the `changed` flag and the per-rule counters of
`Modernizer` (lines 68-72).  The `HashMap<String, u32>` is modeled as an
association list; iteration order is never observed by the engine. -/
structure MState where
  changed : Bool
  counters : List (String × Nat)

/-- Fresh state, as built by `Modernizer::new` (lines 75-81). -/
def initState : MState := { changed := false, counters := [] }

/-- `*self.counters.entry(id).or_insert(0) += 1` (line 161): increment the
entry for `id`, inserting `0` first when absent. -/
def bumpCounters : List (String × Nat) → String → List (String × Nat)
  | [], id => [(id, 1)]
  | (k, v) :: rest, id =>
    if k == id then (k, v + 1) :: rest else (k, v) :: bumpCounters rest id

/-- The side effects of a successful rule application (lines 160-161):
set `changed` and bump the counter of the fired rule. -/
def recordFire (st : MState) (id : String) : MState :=
  { changed := true, counters := bumpCounters st.counters id }

/-- Read a counter, defaulting to zero for an id that never fired. -/
def counterOf (st : MState) (id : String) : Nat :=
  (List.lookup id st.counters).getD 0

/-- Does the character sequence `n` start the sequence given as second
argument?  Helper for the substring test of line 219. -/
def seqStarts : List Char → List Char → Bool
  | [], _ => true
  | _ :: _, [] => false
  | a :: as, b :: bs => a == b && seqStarts as bs

/-- Does the character sequence `n` occur contiguously inside the second
argument?  Helper for the substring test of line 219. -/
def seqWithin : List Char → List Char → Bool
  | n, [] => n.isEmpty
  | n, c :: rest => seqStarts n (c :: rest) || seqWithin n rest

/-- `hay.contains(needle)` on Rust strings (line 219). -/
def strContainsSub (hay needle : String) : Bool :=
  seqWithin needle.data hay.data

/-- The literal pattern searched for at line 219. -/
def deprecatedPat : String := "mem::uninitialized"

/-- The run-time panic produced by `parse_quote!` when the assembled token
stream does not parse as an expression. -/
def parseQuoteFail : String :=
  "parse_quote panic: interpolating the note String yields a token stream that is not an expression"

/-- Embedding of `Modernizer::apply_rule_template` (lines 84-133).  The
receiver of the inspected method call and the rule are the only inputs the
result depends on (the method ident is used for its span only, and the
arguments are never read - in particular the `expect` message argument is
never extracted, see the comment at lines 102-103).  Dispatch is on
`rule.id`:

* `unwrap_to_try` / `expect_to_try` (lines 96-114): the template
  interpolates the local `note : String`, so the assembled token stream is
  `"<note>" <receiver> ?`, which fails to parse; `parse_quote!` panics.
  Modeled as `Except.error parseQuoteFail`.
* `ok_unwrap_to_try` (lines 115-126): when the receiver is itself a method
  call, the replacement is a try-expression around the receiver of that
  inner call; otherwise `None`.
* any other id (lines 127-131): `None`. -/
def applyRuleTemplate (receiver : Expr) (rule : ModernizerRule) : Except String (Option Expr) :=
  if rule.id == "unwrap_to_try" || rule.id == "expect_to_try" then
    Except.error parseQuoteFail
  else if rule.id == "ok_unwrap_to_try" then
    match receiver with
    | Expr.methodCall _ innerReceiver _ _ =>
        Except.ok (some (Expr.tryExpr [] innerReceiver))
    | _ => Except.ok none
  else
    Except.ok none

/-- The match filters of `Modernizer::transform_method_call`
(lines 140-155): AST kind, trigger name, argument count, and - when the
rule carries a `nested_method` - the requirement that the receiver is
itself a method call with that identifier.  A rule without `nested_method`
matches any receiver shape (line 154). -/
def ruleMatches (rule : ModernizerRule) (receiver : Expr) (method : String)
    (args : List Expr) : Bool :=
  rule.ast_type == "ExprMethodCall" &&
  rule.method_name == method &&
  rule.args_count == args.length &&
  (match rule.nested_method with
   | some nested =>
     (match receiver with
      | Expr.methodCall _ _ m _ => m == nested
      | _ => false)
   | none => true)

/-- The rule loop of `Modernizer::transform_method_call` (lines 139-166):
scan the rules in list order; at the first rule passing `ruleMatches`,
run `applyRuleTemplate`.  A panic there aborts everything; a built node
ends the scan with the firing rule; a `None` template lets the loop
continue with the later rules. -/
def firstRuleHit : List ModernizerRule → Expr → String → List Expr →
    Except String (Option (ModernizerRule × Expr))
  | [], _, _, _ => Except.ok none
  | r :: rest, receiver, method, args =>
    if ruleMatches r receiver method args then
      match applyRuleTemplate receiver r with
      | Except.error e => Except.error e
      | Except.ok (some built) => Except.ok (some (r, built))
      | Except.ok none => firstRuleHit rest receiver method args
    else
      firstRuleHit rest receiver method args

/-- Embedding of `Modernizer::transform_method_call` (lines 136-168):
the scan of `firstRuleHit` plus the effects of a fire (lines 160-161). -/
def transformMethodCall (rules : List ModernizerRule) (receiver : Expr)
    (method : String) (args : List Expr) (st : MState) :
    Except String (Option Expr × MState) :=
  match firstRuleHit rules receiver method args with
  | Except.error e => Except.error e
  | Except.ok none => Except.ok (none, st)
  | Except.ok (some (r, built)) => Except.ok (some built, recordFire st r.id)

/-- The node built by the `mem_uninitialized_to_maybeuninit` template
(lines 187-194): `unsafe { std::mem::MaybeUninit::uninit().assume_init() }`.
The comment lines of the template (including the `WARNING` text) are
stripped by the lexer before the macro runs, so the produced node carries
no attribute and no annotation of any kind. -/
def uninitReplacement : Expr :=
  Expr.unsBlock []
    (Expr.methodCall []
      (Expr.callE [] (Expr.pathE [] ["std", "mem", "MaybeUninit", "uninit"]) []) "assume_init" [])

/-- The rule loop of `Modernizer::transform_expr_call` (lines 172-199):
a rule fires iff its `ast_type` is `ExprCall`, its id is exactly
`mem_uninitialized_to_maybeuninit`, the callee is a path whose last
segment equals the rule trigger name, and the call has no arguments.
The declared `args_count` of the rule is never consulted here. -/
def callRuleHit : List ModernizerRule → Expr → List Expr →
    Option (ModernizerRule × Expr)
  | [], _, _ => none
  | r :: rest, func, args =>
    if r.ast_type == "ExprCall" && r.id == "mem_uninitialized_to_maybeuninit" &&
       (match func with
        | Expr.pathE _ segs => segs.getLast? == some r.method_name
        | _ => false) &&
       args.isEmpty then
      some (r, uninitReplacement)
    else
      callRuleHit rest func args

/-- Embedding of `Modernizer::transform_expr_call` (lines 171-201):
the scan of `callRuleHit` plus the effects of a fire (lines 181-182).
No template in this family can panic. -/
def transformExprCall (rules : List ModernizerRule) (func : Expr)
    (args : List Expr) (st : MState) : Option Expr × MState :=
  match callRuleHit rules func args with
  | none => (none, st)
  | some (r, built) => (some built, recordFire st r.id)

mutual

/-- Embedding of `Modernizer::visit_expr_mut` (lines 204-234): a
depth-first post-order walk.  Children are visited first (line 207), then
the node - rebuilt with its already-rewritten children - is offered to
the transformer matching its variant; a produced replacement substitutes
the whole node (attributes included, line 230-232), and the walk does not
re-descend into it.  String literals containing `deprecatedPat` only set
the `changed` flag (lines 217-225).  Path nodes, literals and the opaque
catch-all fall to the `_ => None` arm. -/
def visitExpr (rules : List ModernizerRule) : Expr → MState → Except String (Expr × MState)
  | Expr.methodCall attrs receiver method args, st =>
    match visitExpr rules receiver st with
    | Except.error e => Except.error e
    | Except.ok (receiver2, st1) =>
      match visitExprList rules args st1 with
      | Except.error e => Except.error e
      | Except.ok (args2, st2) =>
        match transformMethodCall rules receiver2 method args2 st2 with
        | Except.error e => Except.error e
        | Except.ok (none, st3) => Except.ok (Expr.methodCall attrs receiver2 method args2, st3)
        | Except.ok (some built, st3) => Except.ok (built, st3)
  | Expr.callE attrs func args, st =>
    match visitExpr rules func st with
    | Except.error e => Except.error e
    | Except.ok (func2, st1) =>
      match visitExprList rules args st1 with
      | Except.error e => Except.error e
      | Except.ok (args2, st2) =>
        match transformExprCall rules func2 args2 st2 with
        | (none, st3) => Except.ok (Expr.callE attrs func2 args2, st3)
        | (some built, st3) => Except.ok (built, st3)
  | Expr.litStr attrs s, st =>
    Except.ok (Expr.litStr attrs s,
      { st with changed := st.changed || strContainsSub s deprecatedPat })
  | Expr.litOther attrs, st => Except.ok (Expr.litOther attrs, st)
  | Expr.pathE attrs segs, st => Except.ok (Expr.pathE attrs segs, st)
  | Expr.tryExpr attrs inner, st =>
    match visitExpr rules inner st with
    | Except.error e => Except.error e
    | Except.ok (inner2, st1) => Except.ok (Expr.tryExpr attrs inner2, st1)
  | Expr.unsBlock attrs body, st =>
    match visitExpr rules body st with
    | Except.error e => Except.error e
    | Except.ok (body2, st1) => Except.ok (Expr.unsBlock attrs body2, st1)
  | Expr.otherExpr attrs, st => Except.ok (Expr.otherExpr attrs, st)

/-- The walk over an argument list, in order, threading state. -/
def visitExprList (rules : List ModernizerRule) : List Expr → MState → Except String (List Expr × MState)
  | [], st => Except.ok ([], st)
  | e :: es, st =>
    match visitExpr rules e st with
    | Except.error err => Except.error err
    | Except.ok (e2, st1) =>
      match visitExprList rules es st1 with
      | Except.error err => Except.error err
      | Except.ok (es2, st2) => Except.ok (e2 :: es2, st2)

end

mutual

/-- Is any attribute (the only possible carrier of a non-executable
annotation in the modeled tree) present anywhere in the expression? -/
def exprHasAnn : Expr → Bool
  | Expr.methodCall attrs receiver _ args =>
    !attrs.isEmpty || exprHasAnn receiver || listHasAnn args
  | Expr.callE attrs func args => !attrs.isEmpty || exprHasAnn func || listHasAnn args
  | Expr.pathE attrs _ => !attrs.isEmpty
  | Expr.litStr attrs _ => !attrs.isEmpty
  | Expr.litOther attrs => !attrs.isEmpty
  | Expr.tryExpr attrs inner => !attrs.isEmpty || exprHasAnn inner
  | Expr.unsBlock attrs body => !attrs.isEmpty || exprHasAnn body
  | Expr.otherExpr attrs => !attrs.isEmpty

/-- List form of `exprHasAnn`. -/
def listHasAnn : List Expr → Bool
  | [] => false
  | e :: es => exprHasAnn e || listHasAnn es

end

mutual

/-- A tree is inert for a rule list when no node of it fires (or panics):
at every method-call node the rule scan ends with `Except.ok none`, and at
every bare-call node the scan finds no hit.  Visiting an inert tree
rebuilds it unchanged and bumps no counter (proved below). -/
def inert (rules : List ModernizerRule) : Expr → Bool
  | Expr.methodCall _ receiver method args =>
    (match firstRuleHit rules receiver method args with
     | Except.ok none => true
     | _ => false) && inert rules receiver && inertList rules args
  | Expr.callE _ func args =>
    (callRuleHit rules func args).isNone && inert rules func && inertList rules args
  | Expr.pathE _ _ => true
  | Expr.litStr _ _ => true
  | Expr.litOther _ => true
  | Expr.tryExpr _ inner => inert rules inner
  | Expr.unsBlock _ body => inert rules body
  | Expr.otherExpr _ => true

/-- List form of `inert`. -/
def inertList (rules : List ModernizerRule) : List Expr → Bool
  | [] => true
  | e :: es => inert rules e && inertList rules es

end

/-- The no-argument-unwrap rule of the unary propagation family. -/
def ruleUnwrap : ModernizerRule :=
  { id := "unwrap_to_try", ast_type := "ExprMethodCall", method_name := "unwrap",
    args_count := 0, replacement_template := "receiver?", level_icon := "OK",
    doc_url := DOC_URL_UNWRAP_TO_TRY, nested_method := none }

/-- The single-argument expect rule of the unary propagation family. -/
def ruleExpect : ModernizerRule :=
  { id := "expect_to_try", ast_type := "ExprMethodCall", method_name := "expect",
    args_count := 1, replacement_template := "receiver?", level_icon := "OK",
    doc_url := DOC_URL_UNWRAP_TO_TRY, nested_method := none }

/-- The chained ok-then-unwrap rule. -/
def ruleChained : ModernizerRule :=
  { id := "ok_unwrap_to_try", ast_type := "ExprMethodCall", method_name := "unwrap",
    args_count := 0, replacement_template := "inner?", level_icon := "OK",
    doc_url := DOC_URL_UNWRAP_TO_TRY, nested_method := some "ok" }

/-- The deprecated-uninitialized-constructor rule, generic in its trigger
name and declared arity (the engine reads the former and ignores the
latter, lines 176-183). -/
def ruleUninit (m : String) (a : Nat) : ModernizerRule :=
  { id := "mem_uninitialized_to_maybeuninit", ast_type := "ExprCall", method_name := m,
    args_count := a, replacement_template := "maybeuninit", level_icon := "WARN",
    doc_url := DOC_URL_MEM_UNINITIALIZED, nested_method := none }

/-- A rule whose id is none of the ids known to `apply_rule_template`:
its template is `None` (lines 127-131), so it can match but never fire. -/
def ruleCustom : ModernizerRule :=
  { id := "custom_rule", ast_type := "ExprMethodCall", method_name := "unwrap",
    args_count := 0, replacement_template := "custom", level_icon := "OK",
    doc_url := DOC_URL_UNWRAP_TO_TRY, nested_method := none }

/-- A rule with a nested trigger on `unwrap`, used to probe which shape of
the receiver the nested check inspects. -/
def ruleOuterFoo : ModernizerRule :=
  { id := "ok_unwrap_to_try", ast_type := "ExprMethodCall", method_name := "foo",
    args_count := 0, replacement_template := "inner?", level_icon := "OK",
    doc_url := DOC_URL_UNWRAP_TO_TRY, nested_method := some "unwrap" }

/-- The three rewrite rules of the unwrap / expect / chained-unwrap
families, the chained one first (the nested-first priority order the
specification documents). -/
def starRules : List ModernizerRule := [ruleChained, ruleUnwrap, ruleExpect]

/-- The bare identifier `value`. -/
def valuePath : Expr := Expr.pathE [] ["value"]

/-- The node `value.unwrap()`. -/
def valueUnwrap : Expr := Expr.methodCall [] valuePath "unwrap" []

/-- The node `value.ok().unwrap()`. -/
def valueOkUnwrap : Expr :=
  Expr.methodCall [] (Expr.methodCall [] valuePath "ok" []) "unwrap" []

/-- The node `value.expect("boom")`. -/
def valueExpectBoom : Expr :=
  Expr.methodCall [] valuePath "expect" [Expr.litStr [] "boom"]

/-- The bare identifier `b`. -/
def bPath : Expr := Expr.pathE [] ["b"]

/-- The node `f(value.unwrap(), x)`: a tree with a sibling after the
failing node, used to observe that the walk aborts instead of continuing. -/
def c2Tree : Expr :=
  Expr.callE [] (Expr.pathE [] ["f"]) [valueUnwrap, Expr.pathE [] ["x"]]

/-- The node `b.ok().unwrap().foo()`: its receiver `b.ok().unwrap()` is a
legacy pattern rewritten by the same traversal. -/
def outerFooNode : Expr :=
  Expr.methodCall []
    (Expr.methodCall [] (Expr.methodCall [] bPath "ok" []) "unwrap" []) "foo" []

/-- Unfolding lemma for the method-call arm of the walk. -/
theorem visitExpr_methodCall (rules : List ModernizerRule) (attrs : List String)
    (receiver : Expr) (method : String) (args : List Expr) (st : MState) :
    visitExpr rules (Expr.methodCall attrs receiver method args) st =
      match visitExpr rules receiver st with
      | Except.error e => Except.error e
      | Except.ok (receiver2, st1) =>
        match visitExprList rules args st1 with
        | Except.error e => Except.error e
        | Except.ok (args2, st2) =>
          match transformMethodCall rules receiver2 method args2 st2 with
          | Except.error e => Except.error e
          | Except.ok (none, st3) =>
              Except.ok (Expr.methodCall attrs receiver2 method args2, st3)
          | Except.ok (some built, st3) => Except.ok (built, st3) := rfl

/-- Lookup after bumping a different id is unchanged. -/
theorem lookup_bumpCounters_ne (l : List (String × Nat)) (id1 id2 : String)
    (h : (id2 == id1) = false) :
    List.lookup id2 (bumpCounters l id1) = List.lookup id2 l := by
  induction l with
  | nil => simp [bumpCounters, List.lookup, h]
  | cons kv rest ih =>
    obtain ⟨k, v⟩ := kv
    by_cases hk : (k == id1) = true
    · have hkid : k = id1 := by simpa using hk
      subst hkid
      simp [bumpCounters, List.lookup, h]
    · have hk2 : (k == id1) = false := by simpa using hk
      by_cases h2 : (id2 == k) = true
      · simp [bumpCounters, hk2, List.lookup, h2]
      · have h2f : (id2 == k) = false := by simpa using h2
        simp [bumpCounters, hk2, List.lookup, h2f, ih]

/-- A fired rule leaves every other counter untouched. -/
theorem counterOf_recordFire_ne (st : MState) (id1 id2 : String)
    (h : (id2 == id1) = false) :
    counterOf (recordFire st id1) id2 = counterOf st id2 := by
  simp [counterOf, recordFire, lookup_bumpCounters_ne st.counters id1 id2 h]

/-- C1: the no-argument-unwrap rule does NOT rewrite `value.unwrap()` to
`value?`; the rule matches, but building its template panics inside
`parse_quote!` (the `#note` interpolation of a Rust `String` becomes a
string-literal token, so the assembled stream does not parse as an
expression), before the counter is ever incremented.  This theorem
evaluates the embedded `transform_method_call` at the failing input. -/
theorem C1_unwrap_fire_panics :
    transformMethodCall [ruleUnwrap] valuePath "unwrap" [] initState
      = Except.error parseQuoteFail := rfl

/-- C2: the traversal is NOT total.  Visiting `f(value.unwrap(), x)` with
the no-argument-unwrap rule aborts the whole walk with the `parse_quote!`
panic raised at the inner node; the sibling `x` is never reached and no
node is left in a rewritten state.  This theorem evaluates the embedded
walk at the failing input. -/
theorem C2_traversal_aborts :
    visitExpr [ruleUnwrap] c2Tree initState = Except.error parseQuoteFail := rfl

/-- C3: visiting `value.expect("boom")` with the expect rule does NOT
produce `value?` with an annotation preserving the text `boom`: the
template interpolates the fixed note string (the message argument is never
read, lines 101-107), and that interpolation makes the token stream
unparseable, so `parse_quote!` panics.  This theorem evaluates the
embedded walk at the failing input. -/
theorem C3_expect_fire_panics :
    visitExpr [ruleExpect] valueExpectBoom initState
      = Except.error parseQuoteFail := rfl

/-- C4 counterexample: a rule set containing the chained-unwrap rule but
listing the plain unwrap rule before it.  On `value.ok().unwrap()` the
plain rule matches first (it has no nested constraint, so any receiver
shape passes), and its template panics: the run aborts instead of
producing `value?` with chained-unwrap counter 1. -/
theorem C4_counterexample :
    visitExpr [ruleUnwrap, ruleChained] valueOkUnwrap initState
      = Except.error parseQuoteFail := rfl

/-- C4 amended: when the chained-unwrap rule is the rule set (so no
earlier rule matches first), visiting `a.ok().unwrap()` - for any receiver
`a` the walk leaves untouched - collapses the node to `a?` in one step,
increments the chained-unwrap counter by 1, and leaves the
unary-propagation counter unchanged. -/
theorem C4_chained_first_collapses (a : Expr) (st : MState)
    (h : visitExpr [ruleChained] a st = Except.ok (a, st)) :
    visitExpr [ruleChained]
        (Expr.methodCall [] (Expr.methodCall [] a "ok" []) "unwrap" []) st
      = Except.ok (Expr.tryExpr [] a, recordFire st "ok_unwrap_to_try")
    ∧ counterOf (recordFire st "ok_unwrap_to_try") "unwrap_to_try"
      = counterOf st "unwrap_to_try" := by
  constructor
  · rw [visitExpr_methodCall, visitExpr_methodCall, h]
    rfl
  · exact counterOf_recordFire_ne st "ok_unwrap_to_try" "unwrap_to_try" rfl

/-- C4 witness: the amended statement at `a := value`, starting from the
fresh state. -/
theorem C4_witness :
    visitExpr [ruleChained]
        (Expr.methodCall [] (Expr.methodCall [] valuePath "ok" []) "unwrap" []) initState
      = Except.ok (Expr.tryExpr [] valuePath, recordFire initState "ok_unwrap_to_try")
    ∧ counterOf (recordFire initState "ok_unwrap_to_try") "unwrap_to_try"
      = counterOf initState "unwrap_to_try" :=
  C4_chained_first_collapses valuePath initState rfl

/-- C5 counterexample: on `value.ok().unwrap()`, both `ruleCustom` (an id
unknown to the template dispatcher) and the chained-unwrap rule pass every
match filter; `ruleCustom` appears first, yet it does not fire - its
template is `None`, the loop continues (line 158 falls through), and the
LATER chained rule fires with its counter at 1, while the earliest
matching rule keeps counter 0. -/
theorem C5_counterexample :
    ruleMatches ruleCustom (Expr.methodCall [] valuePath "ok" []) "unwrap" [] = true
    ∧ ruleMatches ruleChained (Expr.methodCall [] valuePath "ok" []) "unwrap" [] = true
    ∧ transformMethodCall [ruleCustom, ruleChained]
        (Expr.methodCall [] valuePath "ok" []) "unwrap" [] initState
      = Except.ok (some (Expr.tryExpr [] valuePath),
          { changed := true, counters := [("ok_unwrap_to_try", 1)] }) :=
  ⟨rfl, rfl, rfl⟩

/-- Skipping a rule at the head of the scan: the scan moves past a rule
that fails a match filter, and equally past a rule that passes every
filter but whose template returns nothing (the fall-through at
line 158). -/
theorem firstRuleHit_skip (r0 : ModernizerRule) (rest : List ModernizerRule)
    (receiver : Expr) (method : String) (args : List Expr)
    (h0 : ruleMatches r0 receiver method args = false
      ∨ applyRuleTemplate receiver r0 = Except.ok none) :
    firstRuleHit (r0 :: rest) receiver method args
      = firstRuleHit rest receiver method args := by
  rcases h0 with h0 | h0
  · simp [firstRuleHit, h0]
  · cases hm0 : ruleMatches r0 receiver method args with
    | false => simp [firstRuleHit, hm0]
    | true => simp [firstRuleHit, hm0, h0]

/-- C5 amended: the scan runs in list order, and every rule before the
firing one is skipped with its counter staying zero, whether it fails a
match filter or - the case the original claim misses - passes every
filter but has its template return nothing (line 158 falls through).  The
first matching rule whose template builds a node fires: its counter alone
is bumped, by 1, later rules are never consulted, and every other counter
is unchanged.  The hypothesis on the earlier rules excludes exactly the
remaining possibility, a matching rule of the unary family whose template
panics: then nothing fires and the run aborts (the C4 configuration). -/
theorem C5_first_builder_fires (pre : List ModernizerRule)
    (r : ModernizerRule) (rest : List ModernizerRule) (receiver : Expr)
    (method : String) (args : List Expr) (st : MState) (built : Expr)
    (hpre : ∀ r0 ∈ pre, ruleMatches r0 receiver method args = false
      ∨ applyRuleTemplate receiver r0 = Except.ok none)
    (hm : ruleMatches r receiver method args = true)
    (ha : applyRuleTemplate receiver r = Except.ok (some built)) :
    transformMethodCall (pre ++ r :: rest) receiver method args st
      = Except.ok (some built, recordFire st r.id) := by
  induction pre with
  | nil =>
    simp [transformMethodCall, firstRuleHit, hm, ha]
  | cons r0 pre ih =>
    have h0 := hpre r0 (by simp)
    have ih2 := ih (fun r1 hr1 => hpre r1 (by simp [hr1]))
    calc transformMethodCall ((r0 :: pre) ++ r :: rest) receiver method args st
        = transformMethodCall (pre ++ r :: rest) receiver method args st := by
          simp [transformMethodCall, List.cons_append, firstRuleHit_skip _ _ _ _ _ h0]
      _ = Except.ok (some built, recordFire st r.id) := ih2

/-- C5 witness: the configuration of the counterexample itself.
`ruleCustom` is listed first and passes every match filter on
`value.ok().unwrap()`, but its template returns nothing, so it is skipped
with counter zero; the chained rule is the first builder and fires; the
plain unwrap rule - which also matches - is listed after it and never
consulted. -/
theorem C5_witness :
    transformMethodCall [ruleCustom, ruleChained, ruleUnwrap]
        (Expr.methodCall [] valuePath "ok" []) "unwrap" [] initState
      = Except.ok (some (Expr.tryExpr [] valuePath),
          recordFire initState "ok_unwrap_to_try") :=
  C5_first_builder_fires [ruleCustom] ruleChained
    [ruleUnwrap] (Expr.methodCall [] valuePath "ok" []) "unwrap" [] initState
    (Expr.tryExpr [] valuePath)
    (by
      intro r0 hr0
      rw [List.mem_singleton] at hr0
      subst hr0
      exact Or.inr rfl)
    rfl rfl

/-- C6 counterexample: `ruleOuterFoo` requires the nested trigger
`unwrap`, and it DOES pass every filter against the original pre-walk
shape of `b.ok().unwrap().foo()` (first conjunct).  Yet after the full
post-order walk the outer node is not rewritten: the receiver was
collapsed to `b?` first, the nested check then ran against that rewritten
shape and failed, so only the inner chained fire is counted and the root
is still the `foo` method call. -/
theorem C6_counterexample :
    ruleMatches ruleOuterFoo
        (Expr.methodCall [] (Expr.methodCall [] bPath "ok" []) "unwrap" []) "foo" [] = true
    ∧ visitExpr [ruleChained, ruleOuterFoo] outerFooNode initState
      = Except.ok (Expr.methodCall [] (Expr.tryExpr [] bPath) "foo" [],
          { changed := true, counters := [("ok_unwrap_to_try", 1)] }) :=
  ⟨rfl, rfl⟩

/-- C6 amended: the nested-trigger check performed at the outer node
inspects the shape the receiver has AFTER its own rewrite (children are
rewritten before their parent is matched), not the original pre-walk
shape.  Concretely: for every untouched `b`, the outer rule matches the
original shape of `b.ok().unwrap().foo()` (first conjunct), but the walk
rewrites the receiver to `b?` first, the outer rule then fails its nested
check against the rewritten receiver, and the outer node stays. -/
theorem C6_nested_check_on_rewritten_receiver (b : Expr) (st : MState)
    (h : visitExpr [ruleChained, ruleOuterFoo] b st = Except.ok (b, st)) :
    ruleMatches ruleOuterFoo
        (Expr.methodCall [] (Expr.methodCall [] b "ok" []) "unwrap" []) "foo" [] = true
    ∧ visitExpr [ruleChained, ruleOuterFoo]
        (Expr.methodCall []
          (Expr.methodCall [] (Expr.methodCall [] b "ok" []) "unwrap" []) "foo" []) st
      = Except.ok (Expr.methodCall [] (Expr.tryExpr [] b) "foo" [],
          recordFire st "ok_unwrap_to_try") := by
  constructor
  · rfl
  · rw [visitExpr_methodCall, visitExpr_methodCall, visitExpr_methodCall, h]
    rfl

/-- C6 witness: the amended statement at `b := w`, from the fresh state. -/
theorem C6_witness :
    ruleMatches ruleOuterFoo
        (Expr.methodCall []
          (Expr.methodCall [] (Expr.pathE [] ["w"]) "ok" []) "unwrap" []) "foo" [] = true
    ∧ visitExpr [ruleChained, ruleOuterFoo]
        (Expr.methodCall []
          (Expr.methodCall []
            (Expr.methodCall [] (Expr.pathE [] ["w"]) "ok" []) "unwrap" []) "foo" []) initState
      = Except.ok (Expr.methodCall [] (Expr.tryExpr [] (Expr.pathE [] ["w"])) "foo" [],
          recordFire initState "ok_unwrap_to_try") :=
  C6_nested_check_on_rewritten_receiver (Expr.pathE [] ["w"]) initState rfl

/-- C7 counterexample: the zero-argument call to the deprecated
constructor IS rewritten to the unsafe two-step construct and the counter
is incremented, but the produced node carries NO annotation of any kind
(second conjunct): the warning text lives only in `//` comments inside the
tool source, which the lexer strips before `parse_quote!` assembles the
replacement, so no warning accompanies the output. -/
theorem C7_counterexample :
    visitExpr [ruleUninit "uninitialized" 0]
        (Expr.callE [] (Expr.pathE [] ["std", "mem", "uninitialized"]) []) initState
      = Except.ok (uninitReplacement,
          { changed := true, counters := [("mem_uninitialized_to_maybeuninit", 1)] })
    ∧ exprHasAnn uninitReplacement = false :=
  ⟨rfl, rfl⟩

/-- C7 amended: for every bare call whose callee path ends in the rule
trigger name and has no arguments, the rewrite produces exactly
`unsafe { std::mem::MaybeUninit::uninit().assume_init() }` and bumps the
deprecated-construct counter by 1; no warning annotation is attached to
the replacement (the warning text exists only as comments in the tool
source and is discarded by the quasi-quoting). -/
theorem C7_uninit_unsafe_without_annotation (pre : List String) (m : String)
    (a : Nat) (cattrs pattrs : List String) (st : MState) :
    visitExpr [ruleUninit m a]
        (Expr.callE cattrs (Expr.pathE pattrs (pre ++ [m])) []) st
      = Except.ok (uninitReplacement, recordFire st "mem_uninitialized_to_maybeuninit")
    ∧ exprHasAnn uninitReplacement = false := by
  refine ⟨?_, rfl⟩
  simp [visitExpr, visitExprList, transformExprCall, callRuleHit, ruleUninit,
    List.getLast?_concat]

/-- C8: visiting a string literal containing the deprecated pattern, with
ANY rule list (the literal arm never consults the rules), leaves the
literal unchanged, sets the changed flag, and bumps no counter. -/
theorem C8_literal_detection (rules : List ModernizerRule) (attrs : List String)
    (s : String) (st : MState) (h : strContainsSub s deprecatedPat = true) :
    visitExpr rules (Expr.litStr attrs s) st
      = Except.ok (Expr.litStr attrs s, { changed := true, counters := st.counters }) := by
  simp [visitExpr, h]

/-- C8 witness: the empty rule list and the literal text
`mem::uninitialized` itself, from the fresh state. -/
theorem C8_witness :
    visitExpr [] (Expr.litStr [] "mem::uninitialized") initState
      = Except.ok (Expr.litStr [] "mem::uninitialized",
          { changed := true, counters := [] }) :=
  C8_literal_detection [] [] "mem::uninitialized" initState rfl

/-- C10: the bare-call match compares the rule trigger name against the
LAST path segment only: for every prefix of preceding segments, every
trigger name and every declared arity value on the rule (the arity field
is never consulted in this branch), the zero-argument call fires, is
rewritten to the unsafe construct, and the deprecated-construct counter
is bumped by 1. -/
theorem C10_last_segment_only (pre : List String) (m : String) (a : Nat)
    (pattrs : List String) (st : MState) :
    transformExprCall [ruleUninit m a] (Expr.pathE pattrs (pre ++ [m])) [] st
      = (some uninitReplacement, recordFire st "mem_uninitialized_to_maybeuninit") := by
  simp [transformExprCall, callRuleHit, ruleUninit, List.getLast?_concat]

/-- For the three star rules no bare-call rule can hit: none of them has
`ast_type = ExprCall`. -/
theorem star_callRuleHit_none (func : Expr) (args : List Expr) :
    callRuleHit starRules func args = none := rfl

/-- Inversion for a fire of the star rules: only the chained rule can fire
(the templates of the two unary rules panic instead of building a node),
the receiver must be a method call on `ok`, and the built node is a
try-expression around the inner receiver. -/
theorem starHit_fire (receiver : Expr) (method : String) (args : List Expr)
    (p : ModernizerRule × Expr)
    (hf : firstRuleHit starRules receiver method args = Except.ok (some p)) :
    ∃ iattrs irecv iargs, receiver = Expr.methodCall iattrs irecv "ok" iargs
      ∧ p = (ruleChained, Expr.tryExpr [] irecv) := by
  have happU : applyRuleTemplate receiver ruleUnwrap = Except.error parseQuoteFail := rfl
  have happE : applyRuleTemplate receiver ruleExpect = Except.error parseQuoteFail := rfl
  cases h1 : ruleMatches ruleChained receiver method args with
  | false =>
    exfalso
    cases h2 : ruleMatches ruleUnwrap receiver method args with
    | false =>
      cases h3 : ruleMatches ruleExpect receiver method args with
      | false => simp [starRules, firstRuleHit, h1, h2, h3] at hf
      | true => simp [starRules, firstRuleHit, h1, h2, h3, happE] at hf
    | true => simp [starRules, firstRuleHit, h1, h2, happU] at hf
  | true =>
    have h1b := h1
    cases receiver with
    | methodCall iattrs irecv m iargs =>
      have hm : m = "ok" := by
        simp [ruleMatches, ruleChained] at h1b
        exact h1b.2
      subst hm
      have happ : applyRuleTemplate (Expr.methodCall iattrs irecv "ok" iargs) ruleChained
          = Except.ok (some (Expr.tryExpr [] irecv)) := rfl
      refine ⟨iattrs, irecv, iargs, rfl, ?_⟩
      simp [starRules, firstRuleHit, h1, happ] at hf
      exact hf.symm
    | callE cattrs func cargs => simp [ruleMatches, ruleChained] at h1b
    | pathE pattrs segs => simp [ruleMatches, ruleChained] at h1b
    | litStr lattrs v => simp [ruleMatches, ruleChained] at h1b
    | litOther lattrs => simp [ruleMatches, ruleChained] at h1b
    | tryExpr tattrs inner => simp [ruleMatches, ruleChained] at h1b
    | unsBlock uattrs body => simp [ruleMatches, ruleChained] at h1b
    | otherExpr oattrs => simp [ruleMatches, ruleChained] at h1b

mutual

/-- Visiting an inert tree rebuilds it unchanged and leaves every counter
untouched (only the changed flag may move, through the literal arm). -/
theorem inert_visit (rules : List ModernizerRule) :
    ∀ (e : Expr), inert rules e = true → ∀ s : MState, ∃ c : Bool,
      visitExpr rules e s = Except.ok (e, { changed := c, counters := s.counters })
  | Expr.methodCall attrs receiver method args, hi, s => by
    rw [inert] at hi
    rw [Bool.and_eq_true, Bool.and_eq_true] at hi
    obtain ⟨⟨h1, h2⟩, h3⟩ := hi
    have hfr : firstRuleHit rules receiver method args = Except.ok none := by
      cases hf : firstRuleHit rules receiver method args with
      | error e => rw [hf] at h1; simp at h1
      | ok o =>
        cases o with
        | none => rfl
        | some p => rw [hf] at h1; simp at h1
    obtain ⟨c1, hv1⟩ := inert_visit rules receiver h2 s
    obtain ⟨c2, hv2⟩ := inertList_visit rules args h3 { changed := c1, counters := s.counters }
    refine ⟨c2, ?_⟩
    rw [visitExpr_methodCall, hv1]
    simp only []
    rw [hv2]
    simp [transformMethodCall, hfr]
  | Expr.callE attrs func args, hi, s => by
    rw [inert] at hi
    rw [Bool.and_eq_true, Bool.and_eq_true] at hi
    obtain ⟨⟨h1, h2⟩, h3⟩ := hi
    have hfr : callRuleHit rules func args = none := by
      cases hf : callRuleHit rules func args with
      | none => rfl
      | some p => rw [hf] at h1; simp at h1
    obtain ⟨c1, hv1⟩ := inert_visit rules func h2 s
    obtain ⟨c2, hv2⟩ := inertList_visit rules args h3 { changed := c1, counters := s.counters }
    refine ⟨c2, ?_⟩
    simp only [visitExpr]
    rw [hv1]
    simp only []
    rw [hv2]
    simp [transformExprCall, hfr]
  | Expr.pathE attrs segs, _, s => ⟨s.changed, rfl⟩
  | Expr.litStr attrs v, _, s =>
    ⟨s.changed || strContainsSub v deprecatedPat, rfl⟩
  | Expr.litOther attrs, _, s => ⟨s.changed, rfl⟩
  | Expr.tryExpr attrs inner, hi, s => by
    rw [inert] at hi
    obtain ⟨c1, hv1⟩ := inert_visit rules inner hi s
    refine ⟨c1, ?_⟩
    simp only [visitExpr]
    rw [hv1]
  | Expr.unsBlock attrs body, hi, s => by
    rw [inert] at hi
    obtain ⟨c1, hv1⟩ := inert_visit rules body hi s
    refine ⟨c1, ?_⟩
    simp only [visitExpr]
    rw [hv1]
  | Expr.otherExpr attrs, _, s => ⟨s.changed, rfl⟩

/-- List form of `inert_visit`. -/
theorem inertList_visit (rules : List ModernizerRule) :
    ∀ (l : List Expr), inertList rules l = true → ∀ s : MState, ∃ c : Bool,
      visitExprList rules l s = Except.ok (l, { changed := c, counters := s.counters })
  | [], _, s => ⟨s.changed, rfl⟩
  | e :: es, hi, s => by
    rw [inertList, Bool.and_eq_true] at hi
    obtain ⟨h1, h2⟩ := hi
    obtain ⟨c1, hv1⟩ := inert_visit rules e h1 s
    obtain ⟨c2, hv2⟩ := inertList_visit rules es h2 { changed := c1, counters := s.counters }
    refine ⟨c2, ?_⟩
    simp only [visitExprList]
    rw [hv1]
    simp only []
    rw [hv2]

end

mutual

/-- Every tree the star-rule walk outputs is inert: a successful first run
leaves no node on which any of the three families could still fire. -/
theorem visit_star_out_inert : ∀ (t : Expr) (s : MState) (x : Expr) (s2 : MState),
    visitExpr starRules t s = Except.ok (x, s2) → inert starRules x = true
  | Expr.methodCall attrs receiver method args, s, x, s2, hv => by
    rw [visitExpr_methodCall] at hv
    cases hr : visitExpr starRules receiver s with
    | error e => rw [hr] at hv; simp at hv
    | ok p =>
      rw [hr] at hv
      obtain ⟨receiver2, st1⟩ := p
      dsimp only at hv
      cases hl : visitExprList starRules args st1 with
      | error e => rw [hl] at hv; simp at hv
      | ok q =>
        rw [hl] at hv
        obtain ⟨args2, st2⟩ := q
        dsimp only at hv
        have hrin := visit_star_out_inert receiver s receiver2 st1 hr
        have hlin := visitList_star_out_inert args st1 args2 st2 hl
        cases hf : firstRuleHit starRules receiver2 method args2 with
        | error e => simp [transformMethodCall, hf] at hv
        | ok o =>
          cases o with
          | none =>
            simp [transformMethodCall, hf] at hv
            obtain ⟨hx, -⟩ := hv
            subst hx
            simp [inert, hf, hrin, hlin]
          | some p =>
            obtain ⟨iattrs, irecv, iargs, hrec, hp⟩ :=
              starHit_fire receiver2 method args2 p hf
            subst hp
            simp [transformMethodCall, hf] at hv
            obtain ⟨hx, -⟩ := hv
            subst hx
            subst hrec
            rw [inert] at hrin
            rw [Bool.and_eq_true, Bool.and_eq_true] at hrin
            simp [inert, hrin.1.2]
  | Expr.callE attrs func args, s, x, s2, hv => by
    simp only [visitExpr] at hv
    cases hr : visitExpr starRules func s with
    | error e => rw [hr] at hv; simp at hv
    | ok p =>
      rw [hr] at hv
      obtain ⟨func2, st1⟩ := p
      dsimp only at hv
      cases hl : visitExprList starRules args st1 with
      | error e => rw [hl] at hv; simp at hv
      | ok q =>
        rw [hl] at hv
        obtain ⟨args2, st2⟩ := q
        dsimp only at hv
        have hfin := visit_star_out_inert func s func2 st1 hr
        have hlin := visitList_star_out_inert args st1 args2 st2 hl
        simp [transformExprCall, star_callRuleHit_none] at hv
        obtain ⟨hx, -⟩ := hv
        subst hx
        simp [inert, star_callRuleHit_none, hfin, hlin]
  | Expr.pathE attrs segs, s, x, s2, hv => by
    simp only [visitExpr, Except.ok.injEq, Prod.mk.injEq] at hv
    obtain ⟨hx, -⟩ := hv
    subst hx
    rfl
  | Expr.litStr attrs v, s, x, s2, hv => by
    simp only [visitExpr, Except.ok.injEq, Prod.mk.injEq] at hv
    obtain ⟨hx, -⟩ := hv
    subst hx
    rfl
  | Expr.litOther attrs, s, x, s2, hv => by
    simp only [visitExpr, Except.ok.injEq, Prod.mk.injEq] at hv
    obtain ⟨hx, -⟩ := hv
    subst hx
    rfl
  | Expr.tryExpr attrs inner, s, x, s2, hv => by
    simp only [visitExpr] at hv
    cases hr : visitExpr starRules inner s with
    | error e => rw [hr] at hv; simp at hv
    | ok p =>
      rw [hr] at hv
      obtain ⟨inner2, st1⟩ := p
      dsimp only at hv
      simp only [Except.ok.injEq, Prod.mk.injEq] at hv
      obtain ⟨hx, -⟩ := hv
      subst hx
      have := visit_star_out_inert inner s inner2 st1 hr
      simpa [inert] using this
  | Expr.unsBlock attrs body, s, x, s2, hv => by
    simp only [visitExpr] at hv
    cases hr : visitExpr starRules body s with
    | error e => rw [hr] at hv; simp at hv
    | ok p =>
      rw [hr] at hv
      obtain ⟨body2, st1⟩ := p
      dsimp only at hv
      simp only [Except.ok.injEq, Prod.mk.injEq] at hv
      obtain ⟨hx, -⟩ := hv
      subst hx
      have := visit_star_out_inert body s body2 st1 hr
      simpa [inert] using this
  | Expr.otherExpr attrs, s, x, s2, hv => by
    simp only [visitExpr, Except.ok.injEq, Prod.mk.injEq] at hv
    obtain ⟨hx, -⟩ := hv
    subst hx
    rfl

/-- List form of `visit_star_out_inert`. -/
theorem visitList_star_out_inert : ∀ (l : List Expr) (s : MState) (x : List Expr) (s2 : MState),
    visitExprList starRules l s = Except.ok (x, s2) → inertList starRules x = true
  | [], s, x, s2, hv => by
    simp only [visitExprList, Except.ok.injEq, Prod.mk.injEq] at hv
    obtain ⟨hx, -⟩ := hv
    subst hx
    rfl
  | e :: es, s, x, s2, hv => by
    simp only [visitExprList] at hv
    cases hr : visitExpr starRules e s with
    | error err => rw [hr] at hv; simp at hv
    | ok p =>
      rw [hr] at hv
      obtain ⟨e2, st1⟩ := p
      dsimp only at hv
      cases hl : visitExprList starRules es st1 with
      | error err => rw [hl] at hv; simp at hv
      | ok q =>
        rw [hl] at hv
        obtain ⟨es2, st2⟩ := q
        dsimp only at hv
        simp only [Except.ok.injEq, Prod.mk.injEq] at hv
        obtain ⟨hx, -⟩ := hv
        subst hx
        have h1 := visit_star_out_inert e s e2 st1 hr
        have h2 := visitList_star_out_inert es st1 es2 st2 hl
        simp [inertList, h1, h2]

end

/-- C9: the engine is idempotent for the unwrap / expect / chained-unwrap
families.  If a first run over any tree with the three family rules
succeeds, a second run over its output (with a fresh tracker, as the tool
creates one per run) returns the tree unchanged with an empty counter
map - in particular the three family counters are all zero and no rewrite
of any family happens.  (A first run that fires a unary rule does not
succeed at all: it panics, so it has no output tree to re-run on.) -/
theorem C9_idempotent (t t2 : Expr) (st2 : MState)
    (h : visitExpr starRules t initState = Except.ok (t2, st2)) :
    ∃ c : Bool, visitExpr starRules t2 initState
      = Except.ok (t2, { changed := c, counters := [] }) := by
  have hin : inert starRules t2 = true := visit_star_out_inert t initState t2 st2 h
  exact inert_visit starRules t2 hin initState

/-- C9 witness: first run on `value.ok().unwrap()` succeeds (rewriting it
to `value?` with chained counter 1); the theorem then yields the no-op
second run. -/
theorem C9_witness :
    (visitExpr starRules valueOkUnwrap initState
      = Except.ok (Expr.tryExpr [] valuePath,
          { changed := true, counters := [("ok_unwrap_to_try", 1)] }))
    ∧ ∃ c : Bool, visitExpr starRules (Expr.tryExpr [] valuePath) initState
        = Except.ok (Expr.tryExpr [] valuePath, { changed := c, counters := [] }) :=
  ⟨rfl, C9_idempotent valueOkUnwrap (Expr.tryExpr [] valuePath)
    { changed := true, counters := [("ok_unwrap_to_try", 1)] } rfl⟩
